import Mathlib

/-!
Verification development for the listing-draft normalization engine of the
catalog-automation repository (src/pipelines/nike_listings.py).

The Python functions relevant to the claims are embedded shallowly below.
String case operations model CPython `str.upper` / `str.lower` on ASCII
letters (the data handled by the pipeline — style codes, color codes and
titles — is ASCII); non-ASCII characters pass through unchanged.
`pyStrip` models `str.strip()`, `pyReplace` models `str.replace` for a
non-empty pattern (leftmost, non-overlapping), and `splitWS` models
`re.split(r"[\s/]+", s)` including the empty boundary pieces that
`re.split` produces when the string starts or ends with a separator run.
-/

/-! ## Basic Python string-operation models -/

def upperPairs : List (Char × Char) :=
  [('a','A'),('b','B'),('c','C'),('d','D'),('e','E'),('f','F'),('g','G'),('h','H'),('i','I'),
   ('j','J'),('k','K'),('l','L'),('m','M'),('n','N'),('o','O'),('p','P'),('q','Q'),('r','R'),
   ('s','S'),('t','T'),('u','U'),('v','V'),('w','W'),('x','X'),('y','Y'),('z','Z')]

def pyUpperChar (c : Char) : Char :=
  match upperPairs.find? (fun p => p.1 == c) with
  | some p => p.2
  | none => c

def pyLowerChar (c : Char) : Char :=
  match upperPairs.find? (fun p => p.2 == c) with
  | some p => p.1
  | none => c

def pyUpper (s : String) : String := String.mk (s.toList.map pyUpperChar)

def pyLower (s : String) : String := String.mk (s.toList.map pyLowerChar)

def pyStrip (s : String) : String :=
  String.mk (((s.toList.dropWhile Char.isWhitespace).reverse.dropWhile Char.isWhitespace).reverse)

def chPrefix : List Char → List Char → Bool
  | [], _ => true
  | _ :: _, [] => false
  | a :: as, b :: bs => a == b && chPrefix as bs

def chInfix (needle : List Char) : List Char → Bool
  | [] => chPrefix needle []
  | c :: rest => chPrefix needle (c :: rest) || chInfix needle rest

/-- Model of the Python substring test `needle in hay`. -/
def strContains (hay needle : String) : Bool := chInfix needle.toList hay.toList

def anySub (hay : String) (needles : List String) : Bool :=
  needles.any (fun n => strContains hay n)

/-- Model of `" ".join(parts)` (and of joining with an arbitrary separator). -/
def joinSep (sep : String) : List String → String
  | [] => ""
  | [x] => x
  | x :: y :: rest => x ++ sep ++ joinSep sep (y :: rest)

def splitEvery (sep : Char → Bool) : List Char → List (List Char)
  | [] => [[]]
  | c :: rest =>
    if sep c then [] :: splitEvery sep rest
    else
      match splitEvery sep rest with
      | t :: ts => (c :: t) :: ts
      | [] => [[c]]

/-- Merge the interior empty pieces produced by consecutive separators, so that
`splitWS` has the semantics of `re.split` on a one-or-more separator pattern:
separator runs count as one split, and only boundary runs produce empty pieces. -/
def mergeRuns : List String → List String
  | [] => []
  | [x] => [x]
  | x :: y :: rest =>
    x :: (((y :: rest).dropLast.filter (fun t => t ≠ "")) ++ [(y :: rest).getLastD ""])

/-- Model of `re.split(r"[\s/]+", s)`. -/
def splitWS (s : String) : List String :=
  mergeRuns ((splitEvery (fun c => c.isWhitespace || c == '/') s.toList).map String.mk)

def pyReplaceAux (pat rep : List Char) : Nat → List Char → List Char
  | 0, cs => cs
  | fuel + 1, cs =>
    match cs with
    | [] => []
    | c :: rest =>
      if pat ≠ [] ∧ chPrefix pat cs = true then
        rep ++ pyReplaceAux pat rep fuel (cs.drop pat.length)
      else c :: pyReplaceAux pat rep fuel rest

/-- Model of Python `s.replace(pat, rep)` for a non-empty `pat`: leftmost,
non-overlapping occurrences are replaced.  (The fuel is the length of the
string, which suffices because every step consumes at least one character.) -/
def pyReplace (s pat rep : String) : String :=
  String.mk (pyReplaceAux pat.toList rep.toList s.toList.length s.toList)

def splitDashAux : List Char → Option (List Char × List Char)
  | [] => none
  | c :: rest =>
    if c == '-' then some ([], rest)
    else (splitDashAux rest).map (fun p => (c :: p.1, p.2))

/-- Model of `s.split("-", 1)` when it succeeds in producing two parts;
`none` models the `ValueError` of unpacking a dash-free string into two names. -/
def splitFirstDash (s : String) : Option (String × String) :=
  (splitDashAux s.toList).map (fun p => (String.mk p.1, String.mk p.2))

/-- Association-list lookup, modelling a Python dict whose keys are unique. -/
def alookup (m : List (String × String)) (k : String) : Option String :=
  (m.find? (fun p => p.1 == k)).map (fun p => p.2)

def chListLe : List Char → List Char → Bool
  | [], _ => true
  | _ :: _, [] => false
  | a :: as, b :: bs => if a == b then chListLe as bs else decide (a < b)

/-- Lexicographic string comparison on code points, as Python compares `str`. -/
def pyStrLe (a b : String) : Bool := chListLe a.toList b.toList

/-! ## Size normalization (`_normalize_size`, nike_listings.py lines 186-218) -/

def demographicTokens : List String :=
  ["WOMEN", "WOMENS", "WOMEN\x27S", "MENS", "MEN", "MEN\x27S", "BOYS", "GIRLS", "YOUTH",
   "KIDS", "M", "W", "G", "B", "YTH", "K"]

def sizeMapping : List (String × String) :=
  [("XX SMALL", "2XS"), ("XXS", "2XS"), ("2XS", "2XS"),
   ("X SMALL", "XS"), ("EXTRA SMALL", "XS"),
   ("SMALL", "S"), ("MEDIUM", "M"), ("LARGE", "L"),
   ("X LARGE", "XL"), ("EXTRA LARGE", "XL"),
   ("XX LARGE", "2XL"), ("XXX LARGE", "3XL"),
   ("XXL", "2XL"), ("XXXL", "3XL"), ("XXXXL", "4XL"),
   ("2X", "2XL"), ("3X", "3XL"), ("4X", "4XL")]

/-- Matches the tail of the footwear-size regexp, `\d+(\.\d)?$`. -/
def digitsThenOptionalDecimal (cs : List Char) : Bool :=
  let ds := cs.takeWhile Char.isDigit
  let rest := cs.drop ds.length
  decide (ds ≠ []) &&
    (match rest with
     | [] => true
     | ['.', d] => d.isDigit
     | _ => false)

/-- Model of `_shoe_size_re.match(s)` with `^[MW]\s*(\d+(?:\.\d)?)$` (IGNORECASE);
returns the captured numeric group. -/
def shoeSizeMatch (s : String) : Option String :=
  match s.toList with
  | [] => none
  | c :: rest =>
    if c == 'M' || c == 'W' || c == 'm' || c == 'w' then
      let tl := rest.dropWhile Char.isWhitespace
      if digitsThenOptionalDecimal tl then some (String.mk tl) else none
    else none

/-- The footwear test shared by `_normalize_size` and `_cost_from_msrp`:
`("shoe" in t) or ("footwear" in t)` on the lowercased item type. -/
def isFootwearType (itemType : String) : Bool :=
  strContains (pyLower itemType) "shoe" || strContains (pyLower itemType) "footwear"

/-- Model of `_normalize_size(size_val, item_type)`. -/
def normalizeSize (sizeVal itemType : String) : String :=
  let s := pyStrip sizeVal
  if s = "" then s
  else
    match (if isFootwearType itemType then shoeSizeMatch s else none) with
    | some num => num
    | none =>
      let canon := pyStrip (pyReplace (pyReplace (pyUpper s) "-" " ") "  " " ")
      match alookup sizeMapping canon with
      | some tok => tok
      | none =>
        let tokens := (splitWS canon).filter (fun t => t ≠ "")
        let tokens2 :=
          match tokens with
          | t0 :: rest => if demographicTokens.contains t0 then rest else tokens
          | [] => tokens
        joinSep " " tokens2

/-! ## Title expansion (`_expand_title_with_map`, lines 338-351) -/

/-- Model of the loop body of `_expand_title_with_map`: the running index `i`
is 0 for the first token; a position-sensitive hit takes precedence, then the
general map, then the token passes through. -/
def expandLoop (startMap anyMap : List (String × String)) : Nat → List String → List String
  | _, [] => []
  | i, tok :: rest =>
    (if i = 0 ∧ (alookup startMap (pyUpper tok)).isSome then
       (alookup startMap (pyUpper tok)).getD tok
     else
       match alookup anyMap (pyUpper tok) with
       | some ph => ph
       | none => tok) :: expandLoop startMap anyMap (i + 1) rest

/-- Model of `_expand_title_with_map(raw, start_map, any_map)`. -/
def expandTitleWithMap (raw : String) (startMap anyMap : List (String × String)) : String :=
  if raw = "" then ""
  else pyStrip (joinSep " " (expandLoop startMap anyMap 0 (splitWS (pyStrip raw))))

/-- The per-token resolution rule, stated the way the specification describes
it: the first token is matched against the position-sensitive table, every
token (including the first when no positional match applies) is matched
against the general table, and unmatched tokens pass through unchanged. -/
def expandTokenSpec (startMap anyMap : List (String × String)) (i : Nat) (tok : String) : String :=
  match (if i = 0 then alookup startMap (pyUpper tok) else none) with
  | some ph => ph
  | none =>
    match alookup anyMap (pyUpper tok) with
    | some ph => ph
    | none => tok

/-- The specification-side description of title expansion: tokenize on
whitespace/slash, resolve each token by position, join with spaces. -/
def expandTitleSpec (raw : String) (startMap anyMap : List (String × String)) : String :=
  if raw = "" then ""
  else pyStrip (joinSep " " (List.mapIdx (expandTokenSpec startMap anyMap) (splitWS (pyStrip raw))))

/-! ## Product-type resolution (`_map_product_type`, `_load_product_type_map`,
     `_resolve_pt`; lines 477-549 and 715-723) -/

/-- Model of `_map_product_type(expanded_title)`: the secondary hard-coded
keyword chain. -/
def mapProductType (expandedTitle : String) : Option String :=
  let t := pyLower expandedTitle
  if anySub t ["shoe", "sneaker", "footwear"] then some "Shoes"
  else if anySub t ["cap", "hat", "visor", "beanie", "bucket"] then some "Headwear"
  else if anySub t ["sock", "socks"] then some "Socks"
  else if anySub t ["jacket", "hoodie", "full zip", "half zip", "fz", "hz"] then
    some "Jacket & Hoodies"
  else if anySub t ["legging", "tight"] then some "Leggings"
  else if anySub t ["dress"] then some "Women\x27s Dresses"
  else if anySub t ["skirt", "skort"] then some "Shorts & Skirts"
  else if anySub t ["short ", " shorts", "shorts"] then some "Shorts"
  else if anySub t ["pant", "pants", "trouser", "jogger"] then some "Pant"
  else if anySub t ["tee", "t-shirt", "top", "polo", "tank"] then some "T-Shirt & Tops"
  else if anySub t ["bag", "wristband", "headband", "sleeve", "accessory", "accessories"] then
    some "Accessories"
  else none

/-- The built-in keyword→product-type rules of `_load_product_type_map`, in
their literal source order (the `else` branch performs no sorting). -/
def defaultProductTypeRules : List (String × String × Int) :=
  [("polo", "T-Shirt & Tops", 10),
   ("sleeveless", "T-Shirt & Tops", 9),
   ("long sleeve", "T-Shirt & Tops", 9),
   ("jacket", "Jacket & Hoodies", 10),
   ("hoodie", "Jacket & Hoodies", 10),
   ("sock", "Socks", 10),
   ("pant", "Pant", 10),
   ("shorts", "Shorts", 10),
   ("dress", "Women\x27s Dresses", 10),
   ("tight", "Leggings", 10),
   ("skirt", "Shorts & Skirts", 10),
   ("skort", "Shorts & Skirts", 10),
   ("cap", "Headwear", 10),
   ("beanie", "Headwear", 10)]

/-- The sort order used for CSV-loaded product-type rules:
`rules.sort(key=lambda x: (-x[2], x[0]))` — descending priority, ties broken
by ascending keyword. -/
def ptRuleLe (a b : String × String × Int) : Prop :=
  b.2.2 < a.2.2 ∨ (a.2.2 = b.2.2 ∧ pyStrLe a.1 b.1 = true)

instance : DecidableRel ptRuleLe := fun a b => by unfold ptRuleLe; infer_instance

/-- Model of the CSV branch of `_load_product_type_map`: strip, drop rows with
an empty keyword or product type, lowercase keywords, sort by `(-priority,
keyword)` (Python's sort is stable; any stable sort yields the same list). -/
def loadPTRulesCsv (rows : List (String × String × Int)) : List (String × String × Int) :=
  List.insertionSort ptRuleLe
    ((rows.filter (fun r => pyStrip r.1 ≠ "" ∧ pyStrip r.2.1 ≠ "")).map
      (fun r => (pyLower (pyStrip r.1), pyStrip r.2.1, r.2.2)))

/-- Model of the built-in branch of `_load_product_type_map`: the defaults are
returned in literal order, without the sort. -/
def loadPTRulesDefault : List (String × String) :=
  defaultProductTypeRules.map (fun r => (r.1, r.2.1))

/-- Model of `_resolve_pt(row)`: first keyword of `kw_rules` occurring in the
lowercased expanded title, else `_map_product_type`, else the raw vendor item
type if non-empty, else unresolved. -/
def resolveProductType (kwRules : List (String × String)) (expTitle rawType : String) :
    Option String :=
  match kwRules.find? (fun r => strContains (pyLower expTitle) r.1) with
  | some r => some r.2
  | none =>
    match mapProductType expTitle with
    | some pt => some pt
    | none => if rawType = "" then none else some rawType

/-- The claim-side resolution chain, written as the spec phrases it: take the
type of the first matching keyword, fall back to the secondary table, then to
the raw vendor item type, else null. -/
def resolveProductTypeSpec (kwRules : List (String × String)) (expTitle rawType : String) :
    Option String :=
  ((kwRules.findSome? (fun r =>
      if strContains (pyLower expTitle) r.1 then some r.2 else none)).or
    ((mapProductType expTitle).or (if rawType = "" then none else some rawType)))

/-! ## Classifier and tags (`_detect_gender`, `_top_level_tag`,
     `_load_title_category_map`, `_category_from_title`, `_product_tags`,
     `_variant_tags`; lines 373-448 and 725-824) -/

/-- Model of `_detect_gender(title)`. -/
def detectGender (title : String) : String :=
  let t := pyLower title
  if anySub t ["girl\x27s", "girls", "girl"] then "girls"
  else if anySub t ["boy\x27s", "boys", "boy"] then "boys"
  else if anySub t ["women\x27s", "women", "womens", "ladies", "w "] then "women"
  else if anySub t ["men\x27s", "men", "mens", "m "] then "men"
  else if anySub t ["junior", "youth", "kid", "kids", "child"] then "kids"
  else "unknown"

/-- Model of `_top_level_tag(title, item_type)`. -/
def topLevelTag (title itemType : String) : String :=
  let g := detectGender title
  let t := pyLower title
  let footwear := anySub t ["shoe", "sneaker", "footwear"] || strContains (pyLower itemType) "shoe"
  if footwear then
    if g = "women" then "Women\x27s Footwear"
    else if g = "men" then "Men\x27s Footwear"
    else "Kid\x27s Footwear"
  else if g = "women" then "Women\x27s Apparel"
  else if g = "men" then "Men\x27s Apparel"
  else if g = "girls" then "Girl\x27s Apparel"
  else if g = "boys" then "Boy\x27s Apparel"
  else "Accessories"

/-- The built-in keyword→category rules of `_load_title_category_map`, in
source order. -/
def defaultTitleRules : List (String × String) :=
  [("hoodie", "Jacket & Hoodies"), ("jacket", "Jacket & Hoodies"),
   ("fleece", "T-Shirt & Tops"), ("sweatshirt", "T-Shirt & Tops"),
   ("tank top", "T-Shirt & Tops"), ("tank", "T-Shirt & Tops"),
   ("top", "T-Shirt & Tops"), ("shirt", "T-Shirt & Tops"),
   ("t-shirt", "T-Shirt & Tops"), ("polo", "T-Shirt & Tops"),
   ("bra", "T-Shirt & Tops"),
   ("pant", "Pant"), ("pants", "Pant"), ("jogger", "Pant"),
   ("shorts", "Shorts"), ("skirt", "Skirts"), ("leggings", "Leggings"),
   ("dress", "Dress"),
   ("cap", "Headwear"), ("hat", "Headwear"), ("beanie", "Headwear"),
   ("sock", "Socks"), ("shoe", "Shoes")]

/-- Model of the closure `_category_from_title(title, gender)`: first keyword
match wins; a matched "Shorts" becomes "Shorts & Skirts" for women. -/
def categoryFromTitle (rules : List (String × String)) (title gender : String) : Option String :=
  match rules.find? (fun r => strContains (pyLower title) r.1) with
  | some r => if r.2 = "Shorts" ∧ gender = "women" then some "Shorts & Skirts" else some r.2
  | none => none

/-- Model of `_product_tags(row)`, as the ordered list the code builds before
joining with ", " (the join drops empty strings; no component below other than
possibly the uppercased style code can be empty). -/
def productTagsList (rules : List (String × String)) (style expTitle itemType season : String) :
    List String :=
  let top := topLevelTag expTitle itemType
  let cat := categoryFromTitle rules expTitle (detectGender expTitle)
  let tags :=
    if top ≠ "" ∧ strContains top "Footwear" = true then
      ["Nike", pyUpper style] ++ [top]
    else
      ["Nike", pyUpper style]
        ++ (match cat with | some c => [c] | none => ["Needs Category"])
        ++ (if top ≠ "" then [top] else [])
  tags ++ (if pyStrip season ≠ "" then [pyStrip season] else [])

/-- Model of `_variant_tags(row)`.  After the merge with the product-level
frame, both sides carry a `season` column, so pandas renames them to
`season_x`/`season_y`; the lookup `row.get("season", "")` therefore yields ""
for every variant row, and no season tag is ever appended. -/
def variantTagsList (rules : List (String × String)) (style expTitle itemType : String) :
    List String :=
  let top := topLevelTag expTitle itemType
  let cat := categoryFromTitle rules expTitle (detectGender expTitle)
  let tags :=
    if top ≠ "" ∧ strContains top "Footwear" = true then
      ["Nike", pyUpper style] ++ [top]
    else
      let t :=
        ["Nike", pyUpper style]
          ++ (match cat with | some c => [c] | none => ["Needs Category"])
          ++ (if top ≠ "" then [top] else [])
      t ++ (if (cat = some "Headwear" ∨ cat = some "Socks") ∧ "Accessories" ∉ t
            then ["Accessories"] else [])
  let mergedSeason := ""
  tags ++ (if pyStrip mergedSeason ≠ "" then [pyStrip mergedSeason] else [])

/-- The tag list exactly as claim C8 describes it: brand, style code, then —
if footwear, only the top-level tag; otherwise the specific category tag (or
"Needs Category") followed by the top-level tag, with "Accessories" injected
for unisex headwear/sock categories — then the season if non-empty. -/
def c8ClaimTags (rules : List (String × String)) (style expTitle itemType season : String) :
    List String :=
  let gender := detectGender expTitle
  let top := topLevelTag expTitle itemType
  let cat := categoryFromTitle rules expTitle gender
  ["Nike", pyUpper style]
    ++ (if strContains top "Footwear" = true then [top]
        else (match cat with | some c => [c] | none => ["Needs Category"]) ++ [top]
          ++ (if gender = "unknown" ∧ (cat = some "Headwear" ∨ cat = some "Socks")
              then ["Accessories"] else []))
    ++ (if pyStrip season ≠ "" then [pyStrip season] else [])

/-! ## Title deduplication (prepare_listings_draft, lines 686-709 and 763-774) -/

/-- One style-level record: the base title and season of the style's
representative style-color group (its first group in feed order). -/
structure StyleRec where
  base : String
  season : String
deriving DecidableEq, Repr

/-- Model of the first pass (lines 693-705): per style, if the base title is
already on the platform and the stripped season is non-empty, append
`" - {season}"` (the stripped season) once. -/
def pass1Title (existing : List String) (r : StyleRec) : String :=
  if r.base ∈ existing ∧ pyStrip r.season ≠ "" then
    r.base ++ " - " ++ pyStrip r.season
  else r.base

/-- Model of one row of the second pass (lines 769-774): a row whose title is
duplicated within the batch (`duplicated(keep=False)`, i.e. it occurs at least
twice) or equals an existing platform title gets `" - {season}"` (the raw
season) appended when the stripped season is non-empty. -/
def pass2One (existing ts : List String) (p : String × String) : String :=
  if 2 ≤ ts.count p.1 ∨ p.1 ∈ existing then
    (if pyStrip p.2 ≠ "" then p.1 ++ " - " ++ p.2 else p.1)
  else p.1

def pass2Titles (existing : List String) (l : List (String × String)) : List String :=
  l.map (pass2One existing (l.map Prod.fst))

def stylePairs (existing : List String) (rows : List StyleRec) : List (String × String) :=
  rows.map (fun r => (pass1Title existing r, r.season))

/-- The final titles of a batch of styles, given the snapshot of existing
platform titles: pass 1 followed by pass 2. -/
def finalTitles (existing : List String) (rows : List StyleRec) : List String :=
  pass2Titles existing (stylePairs existing rows)

/-! ## Platform snapshot failure handling (lines 686-691 and 763-767) -/

/-- Model of `try: sf = fetch_products_snapshot(); existing_titles = ... except
Exception as e: logger.warning(...); existing_titles = set()`.  Returns the
existing-title set together with the warnings logged. -/
def resolveSnapshot (fetch : Except String (List String)) : List String × List String :=
  match fetch with
  | .ok titles => (titles, [])
  | .error e => ([], ["Listings: Shopify title check skipped (" ++ e ++ ")"])

/-- The title pipeline with its two snapshot fetches (one per pass), each of
which may fail independently; the result carries the logged warnings. -/
def pipelineTitlesWithLog (fetch1 fetch2 : Except String (List String)) (rows : List StyleRec) :
    List String × List String :=
  let s1 := resolveSnapshot fetch1
  let s2 := resolveSnapshot fetch2
  (pass2Titles s2.1 (stylePairs s1.1 rows), s1.2 ++ s2.2)

/-! ## Explicit selections and synthesized rows (lines 619-667) -/

/-- One variant row of the NuOrder feed, with the columns the selection and
synthesis logic touches. -/
structure Row where
  style_code : String
  color_code : String
  vendor : String
  typ : String
  season : String
  size : String
  sku : String
  qty : Int
  msrp : Option ℚ
  nike_title_raw : String
  nike_color_name_raw : String
deriving DecidableEq, Repr

/-- The lowercased selection key `f"{sc}-{cc}".lower()`. -/
def selKey (p : String × String) : String := pyLower (p.1 ++ "-" ++ p.2)

/-- Model of the `select_codes` set (deduplicated lowercased keys). -/
def selectCodes (sels : List (String × String)) : List String := (sels.map selKey).dedup

/-- Model of one entry of `code_series`: `style.upper() + "-" + color.upper()`. -/
def rowCode (r : Row) : String := pyUpper r.style_code ++ "-" ++ pyUpper r.color_code

def rowCodeLower (r : Row) : String := pyLower (rowCode r)

/-- Model of `vdf = vdf[mask]` guarded by `if select_codes:`. -/
def filteredFeed (feed : List Row) (sels : List (String × String)) : List Row :=
  if selectCodes sels = [] then feed
  else feed.filter (fun r => decide (rowCodeLower r ∈ selectCodes sels))

/-- Model of `sorted({c.upper() for c in select_codes if c not in
code_series.str.lower().unique()})`. -/
def missingCodes (feed : List Row) (sels : List (String × String)) : List String :=
  List.insertionSort (fun a b => pyStrLe a b = true)
    ((((selectCodes sels).filter
        (fun c => decide (∀ r ∈ feed, rowCodeLower r ≠ c))).map pyUpper).dedup)

/-- Model of one synthesized row for a missing selection code; `none` models
the `except: continue` taken when the code cannot be unpacked at a dash. -/
def synthRowOfCode (code : String) : Option Row :=
  (splitFirstDash code).map (fun p =>
    { style_code := pyUpper (pyStrip p.1)
      color_code := pyUpper (pyStrip p.2)
      vendor := "", typ := "", season := "", size := "", sku := ""
      qty := 0, msrp := none
      nike_title_raw := pyUpper (pyStrip p.1)
      nike_color_name_raw := "" })

def synthRows (feed : List Row) (sels : List (String × String)) : List Row :=
  (missingCodes feed sels).filterMap synthRowOfCode

/-- The variant rows after selection filtering and synthesis
(`vdf = pd.concat([vdf, pd.DataFrame(synth_rows)])`). -/
def finalVariantRows (feed : List Row) (sels : List (String × String)) : List Row :=
  filteredFeed feed sels ++ synthRows feed sels

/-- The style codes carried by the product-level table (one product row per
distinct `style_code`, via `groupby("style_code")`). -/
def productStyleCodes (feed : List Row) (sels : List (String × String)) : List String :=
  ((finalVariantRows feed sels).map (fun r => r.style_code)).dedup

/-! ## Variant color resolution (lines 552-590 and 777-781) -/

/-- The built-in `_COLOR_CODE_MAP`. -/
def colorCodeMapDefault : List (String × String) :=
  [("451", "Navy Blue"), ("010", "Black"), ("580", "Light Purple"), ("464", "Light Blue"),
   ("629", "Hot Pink"), ("361", "Green"), ("100", "White"), ("657", "Red"), ("379", "Teal"),
   ("402", "Blue"), ("489", "Blue"), ("110", "Ivory"), ("507", "Purple")]

/-- Model of `_color_from_code(code)`: `_COLOR_CODE_MAP.get(str(code).strip(), "")`. -/
def colorFromCode (code : String) : String :=
  match colorCodeMapDefault.find? (fun p => p.1 == pyStrip code) with
  | some p => p.2
  | none => ""

/-- Model of the `Option1 Value` expression (line 781):
`_color_from_code(color_code) or str(raw_name).strip()`. -/
def variantColorName (code rawName : String) : String :=
  if colorFromCode code ≠ "" then colorFromCode code else pyStrip rawName

/-- The resolved color names of one style's variants, in row order. -/
def styleVariantColors (l : List (String × String)) : List String :=
  l.map (fun p => variantColorName p.1 p.2)

/-! ## Cost derivation (`_cost_from_msrp`, lines 177-183, and the
     `Variant Notes` column, lines 790-793) -/

/-- Round-half-even to an integer, the tie behaviour of Python's `round`. -/
def roundHalfEven (q : ℚ) : ℤ :=
  let f := ⌊q⌋
  if q - f < 1/2 then f
  else if (1 : ℚ)/2 < q - f then f + 1
  else if Even f then f else f + 1

/-- Model of `round(x, 2)`. -/
def round2 (q : ℚ) : ℚ := (roundHalfEven (q * 100) : ℚ) / 100

/-- Model of `_cost_from_msrp(msrp, item_type)`; a missing/NaN MSRP is `none`. -/
def costFromMsrp (msrp : Option ℚ) (itemType : String) : Option ℚ :=
  match msrp with
  | none => none
  | some m =>
    if isFootwearType itemType then some (round2 (m * (55/100)))
    else some (round2 (m * (50/100)))

/-- Model of the `Variant Notes` column: `"Missing MSRP" if pd.isna(msrp) else ""`. -/
def variantNote (msrp : Option ℚ) : String :=
  match msrp with
  | none => "Missing MSRP"
  | some _ => ""

/-- The claim-side multiplier: 0.55 for footwear item types, 0.50 otherwise. -/
def c10Multiplier (itemType : String) : ℚ :=
  if isFootwearType itemType then 55/100 else 50/100

/-- The claim-side cost rule: `round(multiplier × MSRP, 2)` when the MSRP is
present, null otherwise. -/
def c10SpecCost (msrp : Option ℚ) (itemType : String) : Option ℚ :=
  msrp.map (fun m => round2 (c10Multiplier itemType * m))

/-- A well-formed selection pair, as produced by `_read_selection_csv` /
the CLI normalization: both parts stripped and uppercased, the key round-trips
through lowercasing, and the joined code splits back at its first dash into
exactly the two parts (the style code contains no dash). -/
def selNormalized (p : String × String) : Prop :=
  pyStrip p.1 = p.1 ∧ pyStrip p.2 = p.2 ∧ pyUpper p.1 = p.1 ∧ pyUpper p.2 = p.2
    ∧ pyUpper (selKey p) = p.1 ++ "-" ++ p.2
    ∧ splitFirstDash (p.1 ++ "-" ++ p.2) = some p

instance (p : String × String) : Decidable (selNormalized p) := by
  unfold selNormalized
  infer_instance

/-! ## Helper lemmas -/

theorem getD_map_of_lt {α β : Type} (f : α → β) (l : List α) (i : Nat) (h : i < l.length)
    (d : β) : (l.map f).getD i d = f l[i] := by
  rw [List.getD_eq_getElem?_getD, List.getElem?_map, List.getElem?_eq_getElem h]
  rfl

theorem count_eq_one_of_unique_getElem {α : Type} [BEq α] [LawfulBEq α] (l : List α) (a : α)
    (i : Nat) (hi : i < l.length) (ha : l[i] = a)
    (hu : ∀ j (hj : j < l.length), j ≠ i → l[j] ≠ a) : l.count a = 1 := by
  induction l generalizing i with
  | nil => simp at hi
  | cons x xs ih =>
    cases i with
    | zero =>
      simp only [List.getElem_cons_zero] at ha
      subst ha
      rw [List.count_cons_self]
      have hnot : x ∉ xs := by
        intro hmemx
        obtain ⟨j, hj, hxj⟩ := List.mem_iff_getElem.mp hmemx
        exact hu (j + 1) (by simpa using Nat.succ_lt_succ hj) (Nat.succ_ne_zero j)
          (by simpa using hxj)
      rw [List.count_eq_zero.mpr hnot]
    | succ k =>
      simp only [List.getElem_cons_succ] at ha
      have hx : x ≠ a := by
        have := hu 0 (Nat.succ_pos _) (Nat.succ_ne_zero k).symm
        simpa using this
      rw [List.count_cons_of_ne (Ne.symm hx)]
      exact ih k (by simpa using Nat.lt_of_succ_lt_succ hi) ha
        (fun j hj hne => by
          have := hu (j + 1) (by simpa using Nat.succ_lt_succ hj)
            (fun hc => hne (Nat.succ_injective hc))
          simpa using this)

theorem two_le_count_of_getElem {α : Type} [BEq α] [LawfulBEq α] (l : List α) (a : α)
    (i j : Nat) (hi : i < l.length) (hj : j < l.length) (hij : i < j)
    (ha : l[i] = a) (hb : l[j] = a) : 2 ≤ l.count a := by
  have hsplit : l = l.take (i + 1) ++ l.drop (i + 1) := (List.take_append_drop (i + 1) l).symm
  have hmem1 : a ∈ l.take (i + 1) := by
    rw [List.mem_take_iff_getElem]
    exact ⟨i, by omega, by simpa using ha⟩
  have hmem2 : a ∈ l.drop (i + 1) := by
    rw [List.mem_iff_getElem]
    refine ⟨j - i - 1, ?_, ?_⟩
    · rw [List.length_drop]; omega
    · rw [List.getElem_drop]
      have : i + 1 + (j - i - 1) = j := by omega
      simp_rw [this]
      exact hb
  calc 2 = 1 + 1 := rfl
    _ ≤ (l.take (i + 1)).count a + (l.drop (i + 1)).count a :=
        Nat.add_le_add (List.count_pos_iff.mpr hmem1) (List.count_pos_iff.mpr hmem2)
    _ = l.count a := by rw [← List.count_append, ← hsplit]

theorem string_append_right_injective (a s t : String) (h : a ++ s = a ++ t) : s = t := by
  have hd := congrArg String.data h
  simp only [String.data_append] at hd
  exact String.ext (List.append_cancel_left hd)

theorem string_ne_append_of_ne_empty (a sep s : String) (hsep : sep ≠ "") :
    a ≠ a ++ sep ++ s := by
  intro h
  have := congrArg String.length h
  rw [String.length_append, String.length_append] at this
  have hpos : 0 < sep.length := by
    cases hl : sep.length with
    | zero => exact absurd (String.ext (List.length_eq_zero.mp hl)) hsep
    | succ n => omega
  omega

/-! ## Claim C9 -/

/-- C9: if the snapshot query for existing platform titles fails (in either of
the two places it is issued), the run does not abort: the title passes proceed
exactly as with an empty existing-title set — no collisions can come from the
existing catalog — and each failure is logged as a warning naming the
exception, not surfaced as an error. -/
theorem c9_snapshot_failure_tolerated (e1 e2 : String) (rows : List StyleRec) :
    pipelineTitlesWithLog (.error e1) (.error e2) rows
      = (finalTitles [] rows,
         ["Listings: Shopify title check skipped (" ++ e1 ++ ")",
          "Listings: Shopify title check skipped (" ++ e2 ++ ")"]) := rfl

/-! ## Claim C10 -/

/-- C10: the derived cost per item is `round(0.55 × MSRP, 2)` when the item
type contains "shoe" or "footwear" case-insensitively, `round(0.50 × MSRP, 2)`
otherwise, and a missing MSRP yields a null cost and the "Missing MSRP"
variant note. -/
theorem c10_cost_rule (msrp : Option ℚ) (itemType : String) :
    costFromMsrp msrp itemType = c10SpecCost msrp itemType
    ∧ variantNote msrp = (if msrp = none then "Missing MSRP" else "")
    ∧ costFromMsrp none itemType = none
    ∧ costFromMsrp (some 100) "Running Shoe" = some 55
    ∧ costFromMsrp (some 100) "Tennis Polo" = some 50 := by
  refine ⟨?_, ?_, rfl, ?_, ?_⟩
  · cases msrp with
    | none => rfl
    | some m =>
      by_cases h : isFootwearType itemType = true
      · simp [costFromMsrp, c10SpecCost, c10Multiplier, h, mul_comm]
      · simp only [Bool.not_eq_true] at h
        simp [costFromMsrp, c10SpecCost, c10Multiplier, h, mul_comm]
  · cases msrp <;> simp [variantNote]
  · have h : isFootwearType "Running Shoe" = true := by decide
    simp only [costFromMsrp, h, if_true]
    norm_num [round2, roundHalfEven]
  · have h : isFootwearType "Tennis Polo" = false := by decide
    simp only [costFromMsrp, h]
    norm_num [round2, roundHalfEven]

/-! ## Claim C2 -/

/-- C2: evaluation of the code at the failing input.  The pipeline resolves
variant colors (the `Option1 Value` column) directly by code-map lookup with
raw-name fallback and never calls `_normalize_colors_for_style`, so a style
carrying color codes 402 and 489 — both mapped to "Blue" — produces two
variants with the same color name, violating the claimed per-style
case-insensitive uniqueness. -/
theorem c2_color_uniqueness_code_eval :
    styleVariantColors [("402", "Team Royal"), ("489", "Game Royal")] = ["Blue", "Blue"]
    ∧ ¬ (["Blue", "Blue"].Pairwise (fun a b => pyLower a ≠ pyLower b)) := by
  constructor
  · decide
  · intro h
    exact (List.pairwise_cons.mp h).1 "Blue" (by simp) rfl

/-! ## Claim C3 -/

/-- C3 counterexample: the claim states that "W 8.5" is left unchanged when
the item type indicates apparel, but the code strips the leading "W" as a
demographic qualifier, yielding "8.5". -/
theorem c3_size_strip_counterexample :
    normalizeSize "W 8.5" "Tennis Polo" ≠ "W 8.5" := by decide

/-- C3 (amended): "W 8.5" and "M 8.5" normalize to "8.5" for footwear item
types; footwear size strings not matching the gender-letter-then-number
pattern fall through to the apparel normalization (so "XXL" becomes "2XL" even
for footwear) and pass through unchanged only when that normalization is the
identity (as for "US 8.5"); and "W 8.5" with an apparel item type also becomes
"8.5", because the leading "W" is stripped as a demographic qualifier. -/
theorem c3_size_strip_amended :
    normalizeSize "W 8.5" "Shoes" = "8.5"
    ∧ normalizeSize "M 8.5" "Shoes" = "8.5"
    ∧ normalizeSize "XXL" "Shoes" = "2XL"
    ∧ normalizeSize "US 8.5" "Shoes" = "US 8.5"
    ∧ normalizeSize "W 8.5" "Tennis Polo" = "8.5" := by decide

/-! ## Claim C4 -/

/-- C4 counterexample: the claim states that unrecognized apparel size strings
pass through unchanged, but the code uppercases them: "osfa" becomes "OSFA". -/
theorem c4_size_roundtrip_counterexample :
    normalizeSize "osfa" "Tennis Polo" ≠ "osfa" := by decide

/-- C4 (amended): normalizing any synonym of the canonical apparel size
vocabulary yields exactly its canonical token; unrecognized apparel size
strings pass through only up to canonicalization — uppercasing, hyphen and
double-space replacement, and demographic-prefix stripping — so a string
already in canonical form ("OSFA") is unchanged while "osfa" becomes "OSFA". -/
theorem c4_size_roundtrip_amended :
    (∀ p ∈ sizeMapping, normalizeSize p.1 "Tennis Polo" = p.2)
    ∧ normalizeSize "OSFA" "Tennis Polo" = "OSFA"
    ∧ normalizeSize "osfa" "Tennis Polo" = "OSFA" := by decide

/-- Witness for C4: a concrete synonym, "XXL", with its canonical token. -/
theorem c4_size_roundtrip_witness :
    ("XXL", "2XL") ∈ sizeMapping ∧ normalizeSize "XXL" "Tennis Polo" = "2XL" :=
  ⟨by decide, c4_size_roundtrip_amended.1 ("XXL", "2XL") (by decide)⟩

/-! ## Claim C6 -/

theorem expandLoop_eq_mapIdx (s a : List (String × String)) (toks : List String) (i : Nat) :
    expandLoop s a i toks = toks.mapIdx (fun j tok => expandTokenSpec s a (j + i) tok) := by
  induction toks generalizing i with
  | nil => simp [expandLoop]
  | cons t ts ih =>
    rw [List.mapIdx_cons]
    unfold expandLoop
    congr 1
    · show _ = expandTokenSpec s a (0 + i) t
      rw [Nat.zero_add]
      unfold expandTokenSpec
      by_cases hi : i = 0
      · subst hi
        cases hs : alookup s (pyUpper t) with
        | none => simp [hs]
        | some ph => simp [hs]
      · simp [hi]
    · rw [ih (i + 1)]
      have harg : (fun j tok => expandTokenSpec s a (j + 1 + i) tok)
          = (fun j tok => expandTokenSpec s a (j + (i + 1)) tok) := by
        funext j tok
        have : j + 1 + i = j + (i + 1) := by omega
        rw [this]
      rw [harg]

/-- C6: title expansion does exactly what the specification describes — the
raw title is tokenized on whitespace/slash (`re.split` semantics), the first
token is resolved against the position-sensitive abbreviation table, every
token (including the first when no positional match applies) is resolved
against the general table, unmatched tokens pass through unchanged, and the
result is the space-joined (and stripped) expansion. -/
theorem c6_title_expansion (raw : String) (startMap anyMap : List (String × String)) :
    expandTitleWithMap raw startMap anyMap = expandTitleSpec raw startMap anyMap := by
  unfold expandTitleWithMap expandTitleSpec
  by_cases h : raw = ""
  · simp [h]
  · rw [if_neg h, if_neg h]
    rw [expandLoop_eq_mapIdx]
    have harg : (fun j tok => expandTokenSpec startMap anyMap (j + 0) tok)
        = expandTokenSpec startMap anyMap := by
      funext j tok
      rw [Nat.add_zero]
    rw [harg]

/-! ## Claim C7 -/

theorem chListLe_total (a b : List Char) : chListLe a b = true ∨ chListLe b a = true := by
  induction a generalizing b with
  | nil => left; rfl
  | cons x xs ih =>
    cases b with
    | nil => right; rfl
    | cons y ys =>
      unfold chListLe
      by_cases hxy : x = y
      · subst hxy
        simp only [beq_self_eq_true, if_true]
        exact ih ys
      · have h1 : (x == y) = false := beq_false_of_ne hxy
        have h2 : (y == x) = false := beq_false_of_ne (Ne.symm hxy)
        simp only [h1, h2, Bool.false_eq_true, if_false]
        rcases lt_trichotomy x y with h | h | h
        · left; exact decide_eq_true h
        · exact absurd h hxy
        · right; exact decide_eq_true h

theorem chListLe_trans (a b c : List Char) (hab : chListLe a b = true)
    (hbc : chListLe b c = true) : chListLe a c = true := by
  induction a generalizing b c with
  | nil => rfl
  | cons x xs ih =>
    cases b with
    | nil => simp [chListLe] at hab
    | cons y ys =>
      cases c with
      | nil => simp [chListLe] at hbc
      | cons z zs =>
        unfold chListLe at hab hbc ⊢
        by_cases hxy : x = y
        · subst hxy
          simp only [beq_self_eq_true, if_true] at hab
          by_cases hyz : x = z
          · subst hyz
            simp only [beq_self_eq_true, if_true] at hbc ⊢
            exact ih ys zs hab hbc
          · have h2 : (x == z) = false := beq_false_of_ne hyz
            simp only [h2, Bool.false_eq_true, if_false] at hbc ⊢
            exact hbc
        · have hxyb : (x == y) = false := beq_false_of_ne hxy
          simp only [hxyb, Bool.false_eq_true, if_false] at hab
          have hlt1 : x < y := of_decide_eq_true hab
          by_cases hyz : y = z
          · subst hyz
            simp only [hxyb, Bool.false_eq_true, if_false]
            exact decide_eq_true hlt1
          · have hyzb : (y == z) = false := beq_false_of_ne hyz
            simp only [hyzb, Bool.false_eq_true, if_false] at hbc
            have hlt2 : y < z := of_decide_eq_true hbc
            have hlt : x < z := lt_trans hlt1 hlt2
            have hne : (x == z) = false := beq_false_of_ne (ne_of_lt hlt)
            simp only [hne, Bool.false_eq_true, if_false]
            exact decide_eq_true hlt

instance : IsTotal (String × String × Int) ptRuleLe := by
  constructor
  intro a b
  unfold ptRuleLe
  rcases lt_trichotomy a.2.2 b.2.2 with h | h | h
  · right; left; exact h
  · rcases chListLe_total a.1.toList b.1.toList with hs | hs
    · left; right; exact ⟨h, hs⟩
    · right; right; exact ⟨h.symm, hs⟩
  · left; left; exact h

instance : IsTrans (String × String × Int) ptRuleLe := by
  constructor
  intro a b c hab hbc
  unfold ptRuleLe at hab hbc ⊢
  rcases hab with h1 | ⟨h1, hs1⟩ <;> rcases hbc with h2 | ⟨h2, hs2⟩
  · left; exact lt_trans h2 h1
  · left; rw [← h2]; exact h1
  · left; rw [h1]; exact h2
  · right
    exact ⟨h1.trans h2, chListLe_trans a.1.toList b.1.toList c.1.toList hs1 hs2⟩

/-- C7 counterexample: the claim describes resolution as scanning a table
"sorted by descending priority with ties broken by keyword lexical order", but
the built-in default table is used in its literal order, unsorted.  On the
expanded title "Sleeveless Jacket" the code (default table) yields
"T-Shirt & Tops", whereas scanning the same rules sorted as the claim states
would yield "Jacket & Hoodies". -/
theorem c7_product_type_counterexample :
    resolveProductType loadPTRulesDefault "Sleeveless Jacket" "" = some "T-Shirt & Tops"
    ∧ resolveProductType
        ((loadPTRulesCsv defaultProductTypeRules).map (fun r => (r.1, r.2.1)))
        "Sleeveless Jacket" "" = some "Jacket & Hoodies"
    ∧ resolveProductType loadPTRulesDefault "Sleeveless Jacket" ""
        ≠ resolveProductType
            ((loadPTRulesCsv defaultProductTypeRules).map (fun r => (r.1, r.2.1)))
            "Sleeveless Jacket" "" := by decide

/-- C7 (amended): a CSV-loaded keyword table is sorted by descending priority
with ties broken by ascending keyword before scanning, and resolution takes
the first keyword occurring as a substring of the expanded title, falling back
to the secondary keyword table, then to the raw vendor item type, else
unresolved; the built-in default table, however, is scanned in its literal
source order without the priority sort (see the counterexample). -/
theorem c7_product_type_amended :
    (∀ rows : List (String × String × Int), List.Sorted ptRuleLe (loadPTRulesCsv rows))
    ∧ (∀ (kwRules : List (String × String)) (expTitle rawType : String),
        resolveProductType kwRules expTitle rawType
          = resolveProductTypeSpec kwRules expTitle rawType) := by
  constructor
  · intro rows
    exact List.sorted_insertionSort ptRuleLe _
  · intro kwRules t rt
    unfold resolveProductType resolveProductTypeSpec
    induction kwRules with
    | nil =>
      simp only [List.find?_nil, List.findSome?_nil, Option.none_or]
      cases mapProductType t <;> simp [Option.or]
    | cons r rs ih =>
      rw [List.find?_cons, List.findSome?_cons]
      cases h : strContains (pyLower t) r.1 with
      | true => simp [Option.or]
      | false =>
        simp only [Bool.false_eq_true, if_false, Option.none_or]
        exact ih

/-! ## Claim C8 -/

theorem topLevelTag_ne_empty (title itemType : String) : topLevelTag title itemType ≠ "" := by
  unfold topLevelTag
  simp only []
  split_ifs <;> decide

/-- C8 counterexample: for a gendered headwear item ("Womens Bucket Hat",
gender resolves to women, category to Headwear), the variant tag list appends
"Accessories" — the claim says that tag is injected only for unisex
headwear/sock categories — and omits the season entirely, while the claim's
described list carries the season and no "Accessories". -/
theorem c8_tag_order_counterexample :
    variantTagsList defaultTitleRules "AB1234" "Womens Bucket Hat" ""
        = ["Nike", "AB1234", "Headwear", "Women\x27s Apparel", "Accessories"]
    ∧ c8ClaimTags defaultTitleRules "AB1234" "Womens Bucket Hat" "" "Summer 2026"
        = ["Nike", "AB1234", "Headwear", "Women\x27s Apparel", "Summer 2026"]
    ∧ variantTagsList defaultTitleRules "AB1234" "Womens Bucket Hat" ""
        ≠ c8ClaimTags defaultTitleRules "AB1234" "Womens Bucket Hat" "" "Summer 2026" := by
  refine ⟨by decide, by decide, ?_⟩
  intro h
  have h1 : variantTagsList defaultTitleRules "AB1234" "Womens Bucket Hat" ""
      = ["Nike", "AB1234", "Headwear", "Women\x27s Apparel", "Accessories"] := by decide
  have h2 : c8ClaimTags defaultTitleRules "AB1234" "Womens Bucket Hat" "" "Summer 2026"
      = ["Nike", "AB1234", "Headwear", "Women\x27s Apparel", "Summer 2026"] := by decide
  rw [h1, h2] at h
  exact absurd h (by decide)

/-- C8 (amended): product tags are brand, uppercased style code, then — for a
footwear top-level tag, only that tag; otherwise the matched category tag (or
the "Needs Category" sentinel) followed by the top-level tag — then the
stripped season when non-empty.  Variant tags follow the same order but never
carry a season (the pandas merge renames the season column, so the lookup
always misses), and additionally append "Accessories" whenever the category is
Headwear or Socks and "Accessories" is not already among the tags — which for
a non-"Accessories" style code happens exactly when the item is not unisex
(unisex items already carry "Accessories" as their top-level tag). -/
theorem c8_tag_order_amended (rules : List (String × String)) (style title itype season : String) :
    (strContains (topLevelTag title itype) "Footwear" = true →
      productTagsList rules style title itype season
        = ["Nike", pyUpper style, topLevelTag title itype]
            ++ (if pyStrip season ≠ "" then [pyStrip season] else [])
      ∧ variantTagsList rules style title itype
        = ["Nike", pyUpper style, topLevelTag title itype])
    ∧ (strContains (topLevelTag title itype) "Footwear" = false →
      productTagsList rules style title itype season
        = ["Nike", pyUpper style,
            (categoryFromTitle rules title (detectGender title)).getD "Needs Category",
            topLevelTag title itype]
            ++ (if pyStrip season ≠ "" then [pyStrip season] else [])
      ∧ variantTagsList rules style title itype
        = ["Nike", pyUpper style,
            (categoryFromTitle rules title (detectGender title)).getD "Needs Category",
            topLevelTag title itype]
            ++ (if (categoryFromTitle rules title (detectGender title) = some "Headwear"
                    ∨ categoryFromTitle rules title (detectGender title) = some "Socks")
                   ∧ pyUpper style ≠ "Accessories"
                   ∧ (categoryFromTitle rules title (detectGender title)).getD "Needs Category"
                       ≠ "Accessories"
                   ∧ topLevelTag title itype ≠ "Accessories"
                then ["Accessories"] else [])) := by
  have htop := topLevelTag_ne_empty title itype
  have hps : ¬ (pyStrip "" ≠ "") := by decide
  constructor
  · intro hfw
    constructor
    · simp only [productTagsList]
      rw [if_pos ⟨htop, hfw⟩]
      rfl
    · simp only [variantTagsList]
      rw [if_pos ⟨htop, hfw⟩, if_neg hps, List.append_nil]
      rfl
  · intro hfw
    have hcond : ¬ (topLevelTag title itype ≠ "" ∧
        strContains (topLevelTag title itype) "Footwear" = true) := by
      intro hc
      rw [hfw] at hc
      exact absurd hc.2 (by decide)
    constructor
    · simp only [productTagsList]
      rw [if_neg hcond, if_pos htop]
      cases hc : categoryFromTitle rules title (detectGender title) with
      | none => simp
      | some c => simp
    · simp only [variantTagsList]
      rw [if_neg hcond, if_pos htop, if_neg hps, List.append_nil]
      cases hc : categoryFromTitle rules title (detectGender title) with
      | none =>
        rw [if_neg (by simp), if_neg (by simp)]
        simp
      | some c =>
        simp only [Option.getD_some]
        have hmemt : "Accessories" ∈ ["Nike", pyUpper style, c, topLevelTag title itype]
            ↔ (pyUpper style = "Accessories" ∨ c = "Accessories"
                ∨ topLevelTag title itype = "Accessories") := by
          simp only [List.mem_cons, List.not_mem_nil, or_false]
          constructor
          · rintro (h | h | h | h)
            · exact absurd h (by decide)
            · exact Or.inl h.symm
            · exact Or.inr (Or.inl h.symm)
            · exact Or.inr (Or.inr h.symm)
          · rintro (h | h | h)
            · exact Or.inr (Or.inl h.symm)
            · exact Or.inr (Or.inr (Or.inl h.symm))
            · exact Or.inr (Or.inr (Or.inr h.symm))
        split_ifs with h1 h2 h2
        · simp [List.append_assoc]
        · exfalso
          apply h2
          refine ⟨h1.1, ?_, ?_, ?_⟩
          · intro he
            exact h1.2 (hmemt.mpr (Or.inl he))
          · intro he
            exact h1.2 (hmemt.mpr (Or.inr (Or.inl he)))
          · intro he
            exact h1.2 (hmemt.mpr (Or.inr (Or.inr he)))
        · exfalso
          apply h1
          refine ⟨h2.1, ?_⟩
          intro hin
          rcases hmemt.mp hin with h | h | h
          · exact h2.2.1 h
          · exact h2.2.2.1 h
          · exact h2.2.2.2 h
        · simp

/-- Witness for C8: both branches of the amended theorem applied at concrete
inputs — a footwear title ("M Court Shoe") and a gendered headwear title
("Womens Bucket Hat"). -/
theorem c8_tag_order_witness :
    (productTagsList defaultTitleRules "AB9999" "M Court Shoe" "" ""
        = ["Nike", pyUpper "AB9999", topLevelTag "M Court Shoe" ""]
            ++ (if pyStrip "" ≠ "" then [pyStrip ""] else [])
      ∧ variantTagsList defaultTitleRules "AB9999" "M Court Shoe" ""
        = ["Nike", pyUpper "AB9999", topLevelTag "M Court Shoe" ""])
    ∧ (productTagsList defaultTitleRules "AB1234" "Womens Bucket Hat" "" "Summer 2026"
        = ["Nike", pyUpper "AB1234",
            (categoryFromTitle defaultTitleRules "Womens Bucket Hat"
              (detectGender "Womens Bucket Hat")).getD "Needs Category",
            topLevelTag "Womens Bucket Hat" ""]
            ++ (if pyStrip "Summer 2026" ≠ "" then [pyStrip "Summer 2026"] else [])
      ∧ variantTagsList defaultTitleRules "AB1234" "Womens Bucket Hat" ""
        = ["Nike", pyUpper "AB1234",
            (categoryFromTitle defaultTitleRules "Womens Bucket Hat"
              (detectGender "Womens Bucket Hat")).getD "Needs Category",
            topLevelTag "Womens Bucket Hat" ""]
            ++ (if (categoryFromTitle defaultTitleRules "Womens Bucket Hat"
                      (detectGender "Womens Bucket Hat") = some "Headwear"
                    ∨ categoryFromTitle defaultTitleRules "Womens Bucket Hat"
                        (detectGender "Womens Bucket Hat") = some "Socks")
                   ∧ pyUpper "AB1234" ≠ "Accessories"
                   ∧ (categoryFromTitle defaultTitleRules "Womens Bucket Hat"
                        (detectGender "Womens Bucket Hat")).getD "Needs Category"
                       ≠ "Accessories"
                   ∧ topLevelTag "Womens Bucket Hat" "" ≠ "Accessories"
                then ["Accessories"] else [])) :=
  ⟨(c8_tag_order_amended defaultTitleRules "AB9999" "M Court Shoe" "" "").1 (by decide),
   (c8_tag_order_amended defaultTitleRules "AB1234" "Womens Bucket Hat" "" "Summer 2026").2
     (by decide)⟩

/-! ## Claim C1 -/

theorem finalTitles_getD_eq (existing : List String) (rows : List StyleRec) (i : Nat)
    (hi : i < rows.length) :
    (finalTitles existing rows).getD i ""
      = pass2One existing (rows.map (pass1Title existing))
          (pass1Title existing rows[i], rows[i].season) := by
  unfold finalTitles pass2Titles stylePairs
  rw [getD_map_of_lt _ _ i (by simpa using hi) ""]
  rw [List.getElem_map]
  rw [List.map_map]
  rfl

/-- C1 counterexample: two styles in the batch share the base title
"Nike Tee" and the same non-empty season; both get the suffix appended, so the
final titles are still identical — the claim asserts they differ whenever at
least one colliding style has a non-empty season. -/
theorem c1_title_dedup_counterexample :
    finalTitles [] [⟨"Nike Tee", "Summer 2026"⟩, ⟨"Nike Tee", "Summer 2026"⟩]
        = ["Nike Tee - Summer 2026", "Nike Tee - Summer 2026"]
    ∧ (finalTitles [] [⟨"Nike Tee", "Summer 2026"⟩, ⟨"Nike Tee", "Summer 2026"⟩]).getD 0 ""
        = (finalTitles [] [⟨"Nike Tee", "Summer 2026"⟩, ⟨"Nike Tee", "Summer 2026"⟩]).getD 1 "" := by
  decide

/-- C1 (amended): for colliding styles the dedup pass behaves as follows.
(1) Two batch-colliding styles (same base title, not an existing platform
title) end with different final titles provided their stripped seasons differ
— in particular when exactly one is non-empty; styles sharing the same season
keep identical titles (see the counterexample).  (2) A style whose base title
is an existing platform title and whose season is non-empty gets the suffix
appended exactly once, provided the suffixed title is not itself an existing
title and no other style's pass-1 title equals it.  (3) A style with an empty
(stripped) season always keeps its un-suffixed base title.  (4) A style whose
base title collides with nothing keeps its base title.  (5) The computation is
a pure function of the batch and the snapshot, so re-running on the same
inputs reproduces the same titles and never appends the suffix a second
time. -/
theorem c1_title_dedup_amended :
    (∀ (existing : List String) (rows : List StyleRec) (i j : Nat)
        (hi : i < rows.length) (hj : j < rows.length),
        i ≠ j →
        rows[i].base = rows[j].base →
        rows[i].base ∉ existing →
        pyStrip rows[i].season ≠ pyStrip rows[j].season →
        (finalTitles existing rows).getD i "" ≠ (finalTitles existing rows).getD j "")
    ∧ (∀ (existing : List String) (rows : List StyleRec) (i : Nat)
        (hi : i < rows.length),
        rows[i].base ∈ existing →
        pyStrip rows[i].season ≠ "" →
        rows[i].base ++ " - " ++ pyStrip rows[i].season ∉ existing →
        (∀ j (hj : j < rows.length), j ≠ i →
            pass1Title existing rows[j] ≠ rows[i].base ++ " - " ++ pyStrip rows[i].season) →
        (finalTitles existing rows).getD i ""
          = rows[i].base ++ " - " ++ pyStrip rows[i].season)
    ∧ (∀ (existing : List String) (rows : List StyleRec) (i : Nat)
        (hi : i < rows.length),
        pyStrip rows[i].season = "" →
        (finalTitles existing rows).getD i "" = rows[i].base)
    ∧ (∀ (existing : List String) (rows : List StyleRec) (i : Nat)
        (hi : i < rows.length),
        rows[i].base ∉ existing →
        (∀ j (hj : j < rows.length), j ≠ i →
            pass1Title existing rows[j] ≠ rows[i].base) →
        (finalTitles existing rows).getD i "" = rows[i].base)
    ∧ (∀ (existing : List String) (rows : List StyleRec),
        finalTitles existing rows = finalTitles existing rows) := by
  refine ⟨?_, ?_, ?_, ?_, fun _ _ => rfl⟩
  · intro e rows i j hi hj hne hbase hnotex hseason
    have hp1i : pass1Title e rows[i] = rows[i].base := by
      unfold pass1Title
      rw [if_neg]
      rintro ⟨hmem, -⟩
      exact hnotex hmem
    have hp1j : pass1Title e rows[j] = rows[j].base := by
      unfold pass1Title
      rw [if_neg]
      rintro ⟨hmem, -⟩
      exact hnotex (hbase ▸ hmem)
    have hcount : 2 ≤ (rows.map (pass1Title e)).count rows[i].base := by
      rcases lt_or_gt_of_ne hne with h | h
      · refine two_le_count_of_getElem _ _ i j (by simpa using hi) (by simpa using hj) h ?_ ?_
        · rw [List.getElem_map]
          exact hp1i
        · rw [List.getElem_map]
          rw [hp1j, hbase]
      · refine two_le_count_of_getElem _ _ j i (by simpa using hj) (by simpa using hi) h ?_ ?_
        · rw [List.getElem_map]
          rw [hp1j, hbase]
        · rw [List.getElem_map]
          exact hp1i
    have hfi : (finalTitles e rows).getD i ""
        = if pyStrip rows[i].season ≠ "" then rows[i].base ++ " - " ++ rows[i].season
          else rows[i].base := by
      rw [finalTitles_getD_eq e rows i hi]
      unfold pass2One
      rw [hp1i, if_pos (Or.inl hcount)]
    have hfj : (finalTitles e rows).getD j ""
        = if pyStrip rows[j].season ≠ "" then rows[j].base ++ " - " ++ rows[j].season
          else rows[j].base := by
      rw [finalTitles_getD_eq e rows j hj]
      unfold pass2One
      rw [hp1j, if_pos (Or.inl (hbase ▸ hcount))]
    rw [hfi, hfj, ← hbase]
    by_cases hsi : pyStrip rows[i].season = ""
    · rw [if_neg (fun hk => hk hsi), if_pos (hsi ▸ hseason).symm]
      exact string_ne_append_of_ne_empty _ " - " _ (by decide)
    · by_cases hsj : pyStrip rows[j].season = ""
      · rw [if_pos hsi, if_neg (fun hk => hk hsj)]
        exact (string_ne_append_of_ne_empty _ " - " _ (by decide)).symm
      · rw [if_pos hsi, if_pos hsj]
        intro heq
        have hs : rows[i].season = rows[j].season :=
          string_append_right_injective (rows[i].base ++ " - ") _ _ heq
        exact hseason (by rw [hs])
  · intro e rows i hi hmem hsne hsufnot huniq
    have hp1i : pass1Title e rows[i] = rows[i].base ++ " - " ++ pyStrip rows[i].season := by
      unfold pass1Title
      rw [if_pos ⟨hmem, hsne⟩]
    have hcount : (rows.map (pass1Title e)).count
        (rows[i].base ++ " - " ++ pyStrip rows[i].season) = 1 := by
      refine count_eq_one_of_unique_getElem _ _ i (by simpa using hi) ?_ ?_
      · rw [List.getElem_map]
        exact hp1i
      · intro j hj hne
        rw [List.getElem_map]
        exact huniq j (by simpa using hj) hne
    rw [finalTitles_getD_eq e rows i hi]
    unfold pass2One
    rw [hp1i, if_neg]
    rintro (h2 | hmemT)
    · have h2b : 2 ≤ (rows.map (pass1Title e)).count
          (rows[i].base ++ " - " ++ pyStrip rows[i].season) := h2
      omega
    · exact hsufnot hmemT
  · intro e rows i hi hs
    have hp1i : pass1Title e rows[i] = rows[i].base := by
      unfold pass1Title
      rw [if_neg]
      rintro ⟨-, hne⟩
      exact hne hs
    rw [finalTitles_getD_eq e rows i hi]
    unfold pass2One
    rw [hp1i]
    by_cases hc : (2 ≤ (rows.map (pass1Title e)).count rows[i].base ∨ rows[i].base ∈ e)
    · rw [if_pos hc, if_neg (fun hk => hk hs)]
    · rw [if_neg hc]
  · intro e rows i hi hnotex huniq
    have hp1i : pass1Title e rows[i] = rows[i].base := by
      unfold pass1Title
      rw [if_neg]
      rintro ⟨hmem, -⟩
      exact hnotex hmem
    have hcount : (rows.map (pass1Title e)).count rows[i].base = 1 := by
      refine count_eq_one_of_unique_getElem _ _ i (by simpa using hi) ?_ ?_
      · rw [List.getElem_map]
        exact hp1i
      · intro j hj hne
        rw [List.getElem_map]
        exact huniq j (by simpa using hj) hne
    rw [finalTitles_getD_eq e rows i hi]
    unfold pass2One
    rw [hp1i, if_neg]
    rintro (h2 | hmemT)
    · have h2b : 2 ≤ (rows.map (pass1Title e)).count rows[i].base := h2
      omega
    · exact hnotex hmemT

/-- Witness for C1: each part of the amended theorem applied at concrete
inputs — a batch collision with distinct seasons, an existing-title collision
with the suffix appended once, an empty-season style, and a collision-free
style. -/
theorem c1_title_dedup_witness :
    ((finalTitles [] [⟨"T", "Summer 2025"⟩, ⟨"T", "Fall 2025"⟩]).getD 0 ""
        ≠ (finalTitles [] [⟨"T", "Summer 2025"⟩, ⟨"T", "Fall 2025"⟩]).getD 1 "")
    ∧ (finalTitles ["T"] [⟨"T", "Summer 2025"⟩]).getD 0 "" = "T - Summer 2025"
    ∧ (finalTitles [] [⟨"U", ""⟩]).getD 0 "" = "U"
    ∧ (finalTitles [] [⟨"V", "Holiday 2025"⟩]).getD 0 "" = "V" := by
  refine ⟨?_, ?_, ?_, ?_⟩
  · exact c1_title_dedup_amended.1 [] [⟨"T", "Summer 2025"⟩, ⟨"T", "Fall 2025"⟩] 0 1
      (by decide) (by decide) (by decide) rfl (by decide) (by decide)
  · have h := c1_title_dedup_amended.2.1 ["T"] [⟨"T", "Summer 2025"⟩] 0
      (by decide) (by decide) (by decide) (by decide)
      (fun j hj hne => absurd (Nat.lt_one_iff.mp hj) hne)
    exact h.trans (by decide)
  · exact c1_title_dedup_amended.2.2.1 [] [⟨"U", ""⟩] 0 (by decide) (by decide)
  · exact c1_title_dedup_amended.2.2.2.1 [] [⟨"V", "Holiday 2025"⟩] 0 (by decide)
      (by decide) (fun j hj hne => absurd (Nat.lt_one_iff.mp hj) hne)

/-! ## Claim C5 -/

theorem synthRowOfCode_of_normalized (p : String × String) (hp : selNormalized p) :
    synthRowOfCode (p.1 ++ "-" ++ p.2)
      = some ⟨p.1, p.2, "", "", "", "", "", 0, none, p.1, ""⟩ := by
  obtain ⟨h1, h2, h3, h4, -, h6⟩ := hp
  unfold synthRowOfCode
  rw [h6]
  simp [h1, h2, h3, h4]

theorem missingCodes_char (feed : List Row) (sels : List (String × String))
    (hnorm : ∀ p ∈ sels, selNormalized p) :
    ∀ K ∈ missingCodes feed sels, ∃ p ∈ sels, K = p.1 ++ "-" ++ p.2 ∧ selNormalized p := by
  intro K hK
  unfold missingCodes at hK
  have hK2 := (List.perm_insertionSort _ _).mem_iff.mp hK
  have hK3 := List.mem_dedup.mp hK2
  obtain ⟨k, hkfilter, hKeq⟩ := List.mem_map.mp hK3
  have hksel := (List.mem_filter.mp hkfilter).1
  obtain ⟨p, hp, hkp⟩ := List.mem_map.mp (List.mem_dedup.mp hksel)
  have hnp := hnorm p hp
  refine ⟨p, hp, ?_, hnp⟩
  rw [← hKeq, ← hkp]
  exact hnp.2.2.2.2.1

/-- C5: every explicitly requested style-color selection absent from the
variant feed yields exactly one variant row — the zero-quantity synthesized
row carrying only the identifying codes — and exactly one product-level entry
for its style.  The hypotheses state that the selections are normalized pairs
(as `_read_selection_csv` produces them) and that the requested pair occurs
nowhere in the feed. -/
theorem c5_selection_coverage
    (feed : List Row) (sels : List (String × String)) (sc cc : String)
    (hmem : (sc, cc) ∈ sels)
    (hnorm : ∀ p ∈ sels, selNormalized p)
    (hmissing : ∀ r ∈ feed, rowCodeLower r ≠ selKey (sc, cc)) :
    (finalVariantRows feed sels).countP
        (fun r => r.style_code == sc && r.color_code == cc) = 1
    ∧ (∀ r ∈ finalVariantRows feed sels, r.style_code = sc → r.color_code = cc →
        r.qty = 0 ∧ r.sku = "" ∧ r.msrp = none ∧ r.size = "")
    ∧ (productStyleCodes feed sels).count sc = 1 := by
  obtain ⟨hs1, hs2, hu1, hu2, hkey, hsplit⟩ := hnorm (sc, cc) hmem
  have hk0sel : selKey (sc, cc) ∈ selectCodes sels :=
    List.mem_dedup.mpr (List.mem_map_of_mem _ hmem)
  have hne : selectCodes sels ≠ [] := List.ne_nil_of_mem hk0sel
  have hmlower : selKey (sc, cc)
      ∈ (selectCodes sels).filter (fun c => decide (∀ r ∈ feed, rowCodeLower r ≠ c)) :=
    List.mem_filter.mpr ⟨hk0sel, by simpa using hmissing⟩
  have hKdedup : (sc ++ "-" ++ cc)
      ∈ (((selectCodes sels).filter
            (fun c => decide (∀ r ∈ feed, rowCodeLower r ≠ c))).map pyUpper).dedup :=
    List.mem_dedup.mpr (by rw [← hkey]; exact List.mem_map_of_mem pyUpper hmlower)
  have hKmissing : (sc ++ "-" ++ cc) ∈ missingCodes feed sels := by
    unfold missingCodes
    exact (List.perm_insertionSort _ _).mem_iff.mpr hKdedup
  have hnodup : (missingCodes feed sels).Nodup := by
    unfold missingCodes
    exact ((List.perm_insertionSort _ _).nodup_iff).mpr (List.nodup_dedup _)
  have hchar := missingCodes_char feed sels hnorm
  have hK0 : synthRowOfCode (sc ++ "-" ++ cc)
      = some ⟨sc, cc, "", "", "", "", "", 0, none, sc, ""⟩ :=
    synthRowOfCode_of_normalized (sc, cc) (hnorm (sc, cc) hmem)
  have hcountFeed : (filteredFeed feed sels).countP
      (fun r => r.style_code == sc && r.color_code == cc) = 0 := by
    rw [List.countP_eq_zero]
    intro r hr
    have hrfeed : r ∈ feed := by
      unfold filteredFeed at hr
      rw [if_neg hne] at hr
      exact List.mem_of_mem_filter hr
    intro hP
    obtain ⟨h1, h2⟩ : r.style_code = sc ∧ r.color_code = cc := by
      simpa [Bool.and_eq_true, beq_iff_eq] using hP
    apply hmissing r hrfeed
    unfold rowCodeLower rowCode
    rw [h1, h2, hu1, hu2]
    rfl
  have hcongr : ∀ K ∈ missingCodes feed sels,
      ((synthRowOfCode K).map
          (fun r => r.style_code == sc && r.color_code == cc)).getD false
        = (K == sc ++ "-" ++ cc) := by
    intro K hK
    obtain ⟨p, hp, hKeq, hnp⟩ := hchar K hK
    subst hKeq
    rw [synthRowOfCode_of_normalized p hnp]
    simp only [Option.map_some', Option.getD_some]
    have hiff : (p.1 = sc ∧ p.2 = cc) ↔ (p.1 ++ "-" ++ p.2 = sc ++ "-" ++ cc) := by
      constructor
      · rintro ⟨h1, h2⟩
        rw [h1, h2]
      · intro he
        have hsome : some p = some (sc, cc) := by
          calc some p = splitFirstDash (p.1 ++ "-" ++ p.2) := hnp.2.2.2.2.2.symm
            _ = splitFirstDash (sc ++ "-" ++ cc) := by rw [he]
            _ = some (sc, cc) := hsplit
        have hpe : p = (sc, cc) := Option.some_injective _ hsome
        exact ⟨by rw [hpe], by rw [hpe]⟩
    cases hb : ((p.1 == sc) && (p.2 == cc)) with
    | true =>
      have hcc : p.1 ++ "-" ++ p.2 = sc ++ "-" ++ cc :=
        hiff.mp (by simpa [Bool.and_eq_true, beq_iff_eq] using hb)
      exact (beq_iff_eq.mpr hcc).symm
    | false =>
      have hnege : ¬ (p.1 ++ "-" ++ p.2 = sc ++ "-" ++ cc) := by
        intro he
        obtain ⟨h1, h2⟩ := hiff.mpr he
        rw [h1, h2] at hb
        simp at hb
      exact (beq_false_of_ne hnege).symm
  have hcountSynth : (synthRows feed sels).countP
      (fun r => r.style_code == sc && r.color_code == cc) = 1 := by
    unfold synthRows
    rw [List.countP_filterMap]
    rw [List.countP_congr (fun K hK => by rw [hcongr K hK])]
    exact List.count_eq_one_of_mem hnodup hKmissing
  refine ⟨?_, ?_, ?_⟩
  · unfold finalVariantRows
    rw [List.countP_append, hcountFeed, hcountSynth]
  · intro r hr h1 h2
    unfold finalVariantRows at hr
    rcases List.mem_append.mp hr with hr | hr
    · exfalso
      have hrfeed : r ∈ feed := by
        unfold filteredFeed at hr
        rw [if_neg hne] at hr
        exact List.mem_of_mem_filter hr
      apply hmissing r hrfeed
      unfold rowCodeLower rowCode
      rw [h1, h2, hu1, hu2]
      rfl
    · unfold synthRows at hr
      obtain ⟨K, hK, hsr⟩ := List.mem_filterMap.mp hr
      obtain ⟨p, hp, hKeq, hnp⟩ := hchar K hK
      subst hKeq
      rw [synthRowOfCode_of_normalized p hnp] at hsr
      have hre : r = ⟨p.1, p.2, "", "", "", "", "", 0, none, p.1, ""⟩ :=
        (Option.some_injective _ hsr).symm
      rw [hre]
      exact ⟨rfl, rfl, rfl, rfl⟩
  · have hsynthmem : (⟨sc, cc, "", "", "", "", "", 0, none, sc, ""⟩ : Row)
        ∈ synthRows feed sels :=
      List.mem_filterMap.mpr ⟨_, hKmissing, hK0⟩
    have hscmem : sc ∈ (finalVariantRows feed sels).map (fun r => r.style_code) :=
      List.mem_map_of_mem _ (List.mem_append.mpr (Or.inr hsynthmem))
    exact List.count_eq_one_of_mem (List.nodup_dedup _) (List.mem_dedup.mpr hscmem)

/-- Witness for C5: a single explicit selection against an empty feed. -/
theorem c5_selection_coverage_witness :
    (finalVariantRows [] [("AB1234", "010")]).countP
        (fun r => r.style_code == "AB1234" && r.color_code == "010") = 1
    ∧ (∀ r ∈ finalVariantRows [] [("AB1234", "010")],
        r.style_code = "AB1234" → r.color_code = "010" →
        r.qty = 0 ∧ r.sku = "" ∧ r.msrp = none ∧ r.size = "")
    ∧ (productStyleCodes [] [("AB1234", "010")]).count "AB1234" = 1 :=
  c5_selection_coverage [] [("AB1234", "010")] "AB1234" "010"
    (by decide) (by decide) (by decide)
